import Mathlib

/-!
Verification development for the color-moodboard pipeline of
`streamlit_app.py`.  The pure logic of the source file (color catalog
lookup, style tagging, palette extraction and sorting, response fence
stripping, and the main control flow) is shallowly embedded below;
machine floats of the source are modelled as exact rationals, and the
external k-means routine appears as an explicit function parameter.
-/

/-- The fixed color catalog `COLOR_NAMES` of the source, in its (Python
dict insertion) iteration order. -/
def COLOR_NAMES : List (String × ℤ × ℤ × ℤ) :=
  [("white", 255, 255, 255), ("black", 0, 0, 0), ("gray", 128, 128, 128),
   ("red", 220, 20, 60), ("orange", 255, 140, 0), ("yellow", 255, 215, 0),
   ("green", 34, 139, 34), ("blue", 30, 144, 255), ("purple", 147, 112, 219),
   ("pink", 255, 182, 193), ("brown", 139, 69, 19),
   ("beige", 245, 245, 220), ("navy", 0, 0, 128), ("olive", 85, 107, 47)]

/-- Squared Euclidean distance between two RGB triples, as in
`closest_color_name`. -/
def colorDist (rgb v : ℤ × ℤ × ℤ) : ℤ :=
  (rgb.1 - v.1) ^ 2 + (rgb.2.1 - v.2.1) ^ 2 + (rgb.2.2 - v.2.2) ^ 2

/-- Comparison `d < md`, where `md : Option ℤ` models the running `min_dist`
initialised to `float("inf")` (`none` = infinity). -/
def ltOptInf (d : ℤ) : Option ℤ → Bool
  | none => true
  | some m => decide (d < m)

/-- The loop of `closest_color_name`: fold over the remaining catalog
entries carrying the current `min_dist` and `closest_name`. -/
def ccnAux (rgb : ℤ × ℤ × ℤ) :
    List (String × ℤ × ℤ × ℤ) → Option ℤ → Option String → Option String
  | [], _, best => best
  | (name, v) :: rest, md, best =>
    if ltOptInf (colorDist rgb v) md then
      ccnAux rgb rest (some (colorDist rgb v)) (some name)
    else
      ccnAux rgb rest md best

/-- Embedding of `closest_color_name` of the source: scan the catalog keeping the
first entry of strictly smallest squared distance. -/
def closest_color_name (rgb : ℤ × ℤ × ℤ) : Option String :=
  ccnAux rgb COLOR_NAMES none none

/-- Mean channel brightness `(r + g + b) / 3` of `color_style_tags`;
the source's float division is modelled exactly in `ℚ`. -/
def meanBrightness (r g b : ℤ) : ℚ := ((r : ℚ) + g + b) / 3

/-- Channel spread `max(r, g, b) - min(r, g, b)` of `color_style_tags`. -/
def chroma (r g b : ℤ) : ℤ := max r (max g b) - min r (min g b)

/-- Temperature tag of `color_style_tags`: the `if b > r and b > g`
/ `elif r > b and g > b` / `else` chain. -/
def tempTag (r g b : ℤ) : String :=
  if b > r ∧ b > g then ("cool")
  else if r > b ∧ g > b then ("warm")
  else ("neutral")

/-- Brightness group of `color_style_tags`. -/
def brightnessTags (r g b : ℤ) : List String :=
  if meanBrightness r g b > 200 then ["bright"]
  else if meanBrightness r g b < 60 then ["dark"]
  else []

/-- Chroma group of `color_style_tags`. -/
def chromaTags (r g b : ℤ) : List String :=
  if chroma r g b > 100 then ["vivid"]
  else if chroma r g b < 30 then ["muted"]
  else []

/-- The `luxury` rule of `color_style_tags`. -/
def luxuryTags (r g b : ℤ) : List String :=
  if meanBrightness r g b < 120 ∧ chroma r g b < 50 then ["luxury"] else []

/-- The `natural` rule of `color_style_tags`. -/
def naturalTags (r g b : ℤ) : List String :=
  if r > 120 ∧ g > 100 ∧ b < 80 ∧ chroma r g b > 20 then ["natural"] else []

/-- Embedding of `color_style_tags` of the source: the tag list appended in the
source's evaluation order. -/
def color_style_tags (r g b : ℤ) : List String :=
  [tempTag r g b] ++ brightnessTags r g b ++ chromaTags r g b
    ++ luxuryTags r g b ++ naturalTags r g b

/-- Luminance `0.299 R + 0.587 G + 0.114 B` used by `extract_colors`
for ordering the centroids; the float weights are modelled exactly. -/
def luminance (c : ℤ × ℤ × ℤ) : ℚ :=
  0.299 * (c.1 : ℚ) + 0.587 * (c.2.1 : ℚ) + 0.114 * (c.2.2 : ℚ)

/-- The luminance ordering relation used for the palette sort. -/
def lumLE (a b : ℤ × ℤ × ℤ) : Prop := luminance a ≤ luminance b

instance : DecidableRel lumLE :=
  fun a b => inferInstanceAs (Decidable (luminance a ≤ luminance b))

instance : IsTotal (ℤ × ℤ × ℤ) lumLE := ⟨fun a b => le_total _ _⟩

instance : IsTrans (ℤ × ℤ × ℤ) lumLE := ⟨fun _ _ _ => le_trans⟩

/-- Numpy's `astype(int)` on one channel: truncation toward zero of an
exact rational centroid coordinate. -/
def astypeInt (q : ℚ) : ℤ := if 0 ≤ q then ⌊q⌋ else ⌈q⌉

/-- Numpy's `astype(int)` on an RGB centroid. -/
def astypeRGB (c : ℚ × ℚ × ℚ) : ℤ × ℤ × ℤ :=
  (astypeInt c.1, astypeInt c.2.1, astypeInt c.2.2)

/-- Embedding of `extract_colors` of the source: run the (external, fixed-seed)
k-means routine — passed here as the explicit function `kmeansFit` — on
the flattened pixel list, convert the centroids with `astype(int)`, and
return them sorted ascending by luminance (the `argsort` reordering). -/
def extract_colors (kmeansFit : List (ℤ × ℤ × ℤ) → ℕ → List (ℚ × ℚ × ℚ))
    (image : List (ℤ × ℤ × ℤ)) (k : ℕ) : List (ℤ × ℤ × ℤ) :=
  List.insertionSort lumLE ((kmeansFit image k).map astypeRGB)

/-- Modelled from the spec: the palette builder as the spec's words
describe it ("each cluster centroid rounded to integer RGB", claim C5:
"each floating-point channel mapped to its nearest integer") — identical
to `extract_colors` except that channels are rounded to the nearest
integer instead of truncated. -/
def specRoundedExtractColors (kmeansFit : List (ℤ × ℤ × ℤ) → ℕ → List (ℚ × ℚ × ℚ))
    (image : List (ℤ × ℤ × ℤ)) (k : ℕ) : List (ℤ × ℤ × ℤ) :=
  List.insertionSort lumLE
    ((kmeansFit image k).map (fun c => (round c.1, round c.2.1, round c.2.2)))

/-- Literal-prefix test, as Python's `str.startswith`. -/
def startswith : List Char → List Char → Bool
  | [], _ => true
  | _ :: _, [] => false
  | p :: ps, c :: cs => p == c && startswith ps cs

/-- Python's `str.lstrip(chars)`: remove the maximal leading run of
characters drawn from the character SET `set`. -/
def pyLstrip (set : List Char) : List Char → List Char
  | [] => []
  | c :: cs => if c ∈ set then pyLstrip set cs else c :: cs

/-- Python's `str.rstrip(chars)`: remove the maximal trailing run of
characters drawn from the character SET `set`. -/
def pyRstrip (set : List Char) (s : List Char) : List Char :=
  (pyLstrip set s.reverse).reverse

/-- The character set of Python's default `str.strip()`. -/
def wsChars : List Char := (" \t\n\r\x0b\x0c").toList

/-- The character set of `lstrip("```json")`. -/
def fenceChars : List Char := ("```json").toList

/-- The character set of `rstrip("```")`. -/
def backtickChars : List Char := ("```").toList

/-- Python's `str.strip()` on both ends. -/
def pyStrip (s : List Char) : List Char := pyRstrip wsChars (pyLstrip wsChars s)

/-- The fence-stripping step of `generate_brand_moodboard_content`:
`json_text = response.text.strip()`, and when it starts with the
literal `\x60\x60\x60json`, `json_text.lstrip("\x60\x60\x60json").rstrip("\x60\x60\x60").strip()`. -/
def stripJsonFence (s : List Char) : List Char :=
  let t := pyStrip s
  if startswith fenceChars t then
    pyStrip (pyRstrip backtickChars (pyLstrip fenceChars t))
  else t

/-- Remove the literal trailing `suffix` when present. -/
def dropSuffix (suffix s : List Char) : List Char :=
  if suffix.isSuffixOf s then s.take (s.length - suffix.length) else s

/-- Modelled from the spec: fence stripping as the spec's words state it
("strip a leading fenced-code marker (literal prefix) and trailing fence
(literal) if present"), i.e. removal of the literal seven-character
leading marker and the literal three-character trailing fence; kept only
for comparison against the source's character-set stripping. -/
def specStripJsonFence (s : List Char) : List Char :=
  let t := pyStrip s
  if startswith fenceChars t then
    pyStrip (dropSuffix backtickChars (t.drop fenceChars.length))
  else t

/-- Values of the JSON fragment relevant to the pipeline. -/
inductive JsonVal where
  | null : JsonVal
  | bool : Bool → JsonVal
  | num : ℤ → JsonVal
  | str : List Char → JsonVal
  | arr : List JsonVal → JsonVal
  | obj : List (List Char × JsonVal) → JsonVal

/-- Unescape the character after a backslash inside a JSON string
(minimal: named escapes for n/t/r, pass-through otherwise). -/
def unescapeChar (e : Char) : Char :=
  if e = 'n' then '\n' else if e = 't' then '\t' else if e = 'r' then '\r' else e

/-- Parse the body of a JSON string after the opening quote, returning
the content and the remainder after the closing quote. -/
def parseStringBody : List Char → Option (List Char × List Char)
  | [] => none
  | c :: cs =>
    if c = '"' then some ([], cs)
    else if c = '\\' then
      match cs with
      | [] => none
      | e :: cs2 =>
        match parseStringBody cs2 with
        | none => none
        | some (content, rest) => some (unescapeChar e :: content, rest)
    else
      match parseStringBody cs with
      | none => none
      | some (content, rest) => some (c :: content, rest)

/-- Split off a maximal leading run of decimal digits. -/
def takeDigits : List Char → List Char × List Char
  | [] => ([], [])
  | c :: cs =>
    if c.isDigit then
      let p := takeDigits cs
      (c :: p.1, p.2)
    else ([], c :: cs)

/-- Value of a digit string. -/
def digitsToNat (ds : List Char) : ℕ :=
  ds.foldl (fun a c => a * 10 + (c.toNat - 48)) 0

/-- Skip JSON whitespace. -/
def skipWs : List Char → List Char
  | [] => []
  | c :: cs =>
    if c = ' ' ∨ c = '\t' ∨ c = '\n' ∨ c = '\r' then skipWs cs else c :: cs

mutual

/-- Modelled from the spec: a minimal fuel-indexed JSON value parser
standing in for the Python standard library's `json.loads` (an external
collaborator; the spec only says "parse the remainder as JSON").  It
supports the null/boolean/integer/string/array/object forms exercised
here; a `none` result models `json.loads` raising (the ParseError). -/
def parseVal : ℕ → List Char → Option (JsonVal × List Char)
  | 0, _ => none
  | fuel + 1, s =>
    match skipWs s with
    | [] => none
    | c :: rest =>
      if c = 'n' then
        if startswith (("ull").toList) rest then some (.null, rest.drop 3) else none
      else if c = 't' then
        if startswith (("rue").toList) rest then some (.bool true, rest.drop 3) else none
      else if c = 'f' then
        if startswith (("alse").toList) rest then some (.bool false, rest.drop 4) else none
      else if c = '"' then
        match parseStringBody rest with
        | none => none
        | some (content, rest2) => some (.str content, rest2)
      else if c = '-' then
        match takeDigits rest with
        | ([], _) => none
        | (ds, rest2) => some (.num (-(digitsToNat ds : ℤ)), rest2)
      else if c.isDigit then
        match takeDigits (c :: rest) with
        | ([], _) => none
        | (ds, rest2) => some (.num (digitsToNat ds : ℤ), rest2)
      else if c = '[' then
        match skipWs rest with
        | ']' :: rest2 => some (.arr [], rest2)
        | _ =>
          match parseElems fuel rest with
          | none => none
          | some (vs, rest2) => some (.arr vs, rest2)
      else if c = '\x7b' then
        match skipWs rest with
        | '\x7d' :: rest2 => some (.obj [], rest2)
        | _ =>
          match parseFields fuel rest with
          | none => none
          | some (fs, rest2) => some (.obj fs, rest2)
      else none

/-- Comma-separated JSON array elements up to the closing bracket. -/
def parseElems : ℕ → List Char → Option (List JsonVal × List Char)
  | 0, _ => none
  | fuel + 1, s =>
    match parseVal fuel s with
    | none => none
    | some (v, rest) =>
      match skipWs rest with
      | ',' :: rest2 =>
        match parseElems fuel rest2 with
        | none => none
        | some (vs, rest3) => some (v :: vs, rest3)
      | ']' :: rest2 => some ([v], rest2)
      | _ => none

/-- Comma-separated JSON object fields up to the closing brace. -/
def parseFields : ℕ → List Char → Option (List (List Char × JsonVal) × List Char)
  | 0, _ => none
  | fuel + 1, s =>
    match skipWs s with
    | '"' :: rest =>
      match parseStringBody rest with
      | none => none
      | some (key, rest2) =>
        match skipWs rest2 with
        | ':' :: rest3 =>
          match parseVal fuel rest3 with
          | none => none
          | some (v, rest4) =>
            match skipWs rest4 with
            | ',' :: rest5 =>
              match parseFields fuel rest5 with
              | none => none
              | some (fs, rest6) => some ((key, v) :: fs, rest6)
            | '\x7d' :: rest5 => some ([(key, v)], rest5)
            | _ => none
        | _ => none
    | _ => none

end

/-- Parse a full JSON document: one value and only whitespace after it
(`json.loads` rejects trailing content). -/
def parseJsonChars (s : List Char) : Option JsonVal :=
  match parseVal (s.length + 1) s with
  | none => none
  | some (v, rest) => if skipWs rest = [] then some v else none

/-- The response-parsing step of `generate_brand_moodboard_content`:
strip the fence, then parse as JSON; `none` models the raised
parse error. -/
def parseResponse (s : String) : Option JsonVal :=
  parseJsonChars (stripJsonFence s.toList)

/-- Observable steps of `main`, in source order. -/
inductive Ev where
  | pageConfig | titleBanner | intro
  | apiKeyError
  | sidebarHeader | fileUploader | kSlider
  | infoUpload
  | imageError
  | showImage | analysisHeader | extractRun | paletteFig | tagTable
  | remoteCall | serviceErr | genErr | showResult
deriving DecidableEq

/-- Outcome of the remote-generation step seen by `main`'s two `except`
branches: `clientInitFail` models the `ConnectionError` raised when the
client cannot be constructed; `callFail` models any other exception from
the call; `ok text` is a returned response text. -/
inductive RemoteOutcome where
  | clientInitFail
  | callFail
  | ok (text : String)

/-- Control flow of `main`: page setup, the `st.secrets` lookup with its
error-and-return branch, the sidebar widgets, the upload guard, image
decoding, the analysis stages, and the generation call with its two
distinct `except` handlers (`ConnectionError` vs generic `Exception`,
the latter covering `json.loads` failures). -/
def main_flow (secretKey : Option String) (uploaded : Option (List (ℤ × ℤ × ℤ)))
    (decodeOk : Bool) (k : ℕ) (outcome : RemoteOutcome) : List Ev :=
  [Ev.pageConfig, Ev.titleBanner, Ev.intro] ++
    match secretKey with
    | none => [Ev.apiKeyError]
    | some _ =>
      [Ev.sidebarHeader, Ev.fileUploader, Ev.kSlider] ++
        match uploaded with
        | none => [Ev.infoUpload]
        | some _ =>
          if !decodeOk then [Ev.imageError]
          else
            [Ev.showImage, Ev.analysisHeader, Ev.extractRun, Ev.paletteFig, Ev.tagTable] ++
              match outcome with
              | .clientInitFail => [Ev.remoteCall, Ev.serviceErr]
              | .callFail => [Ev.remoteCall, Ev.genErr]
              | .ok text =>
                match parseResponse text with
                | none => [Ev.remoteCall, Ev.genErr]
                | some _ => [Ev.remoteCall, Ev.showResult]

/-- Python's `str.split(sep)` accumulator loop over characters. -/
def pySplitAux (sep : Char) : List Char → List Char → List (List Char)
  | [], acc => [acc.reverse]
  | c :: cs, acc =>
    if c = sep then acc.reverse :: pySplitAux sep cs []
    else pySplitAux sep cs (c :: acc)

/-- Python's `str.split(sep)` for a one-character separator. -/
def pySplit (sep : Char) (s : String) : List String :=
  (pySplitAux sep s.toList []).map String.mk

/-- Modelled from the spec: the EmotionClassifier's fixed display
mapping table (icon + localized label) over the 9-term vocabulary
(anger, anxiety, dissatisfaction, doubt, helplessness, demand,
complaint, calm, gratitude); the source file of that variant is not
under `src/`.  The token spellings 憤怒 (anger) and 要求 (demand) are
fixed by the spec's example; the remaining token spellings and all icons
are placeholders faithful only to the table's shape (token to icon plus
localized label). -/
def emotionDisplayMap : List (String × String) :=
  [("憤怒", "😡 憤怒"), ("焦慮", "😰 焦慮"), ("不滿", "😒 不滿"),
   ("質疑", "🤨 質疑"), ("無助", "😢 無助"), ("要求", "📢 要求"),
   ("抱怨", "😤 抱怨"), ("平靜", "😌 平靜"), ("感謝", "🙏 感謝")]

/-- Modelled from the spec: the classifier output text is treated as an
ordered token list split on the `|` separator. -/
def classifyTokens (output : String) : List String := pySplit '|' output

/-- Modelled from the spec: each token is looked up in the display
mapping table; unknown tokens pass through unmapped. -/
def renderEmotionToken (tok : String) : String :=
  (emotionDisplayMap.lookup tok).getD tok

/-- Modelled from the spec: the mapped labels are joined by `" / "`. -/
def renderEmotions (output : String) : String :=
  String.intercalate (" / ") (List.map renderEmotionToken (classifyTokens output))

theorem ccnAux_invariant (rgb : ℤ × ℤ × ℤ) :
    ∀ (l : List (String × ℤ × ℤ × ℤ)) (m : ℤ) (bn : String),
      (ccnAux rgb l (some m) (some bn) = some bn ∧
        ∀ e ∈ l, m ≤ colorDist rgb e.2) ∨
      (∃ l1 e l2, l = l1 ++ e :: l2 ∧
        ccnAux rgb l (some m) (some bn) = some e.1 ∧
        colorDist rgb e.2 < m ∧
        (∀ e' ∈ l1, colorDist rgb e.2 < colorDist rgb e'.2) ∧
        (∀ e' ∈ l2, colorDist rgb e.2 ≤ colorDist rgb e'.2)) := by
  intro l
  induction l with
  | nil =>
    intro m bn
    exact Or.inl ⟨rfl, by simp⟩
  | cons hd rest ih =>
    intro m bn
    obtain ⟨name, v⟩ := hd
    by_cases h : colorDist rgb v < m
    · have hstep : ccnAux rgb ((name, v) :: rest) (some m) (some bn)
          = ccnAux rgb rest (some (colorDist rgb v)) (some name) := by
        simp [ccnAux, ltOptInf, h]
      rcases ih (colorDist rgb v) name with ⟨heq, hall⟩ | ⟨l1, e, l2, hsplit, heq, hlt, hl1, hl2⟩
      · refine Or.inr ⟨[], (name, v), rest, by simp, ?_, h, by simp, ?_⟩
        · rw [hstep, heq]
        · intro e' he'; exact hall e' he'
      · refine Or.inr ⟨(name, v) :: l1, e, l2, by simp [hsplit], ?_, ?_, ?_, hl2⟩
        · rw [hstep, heq]
        · exact lt_trans hlt h
        · intro e' he'
          rcases List.mem_cons.mp he' with rfl | hmem
          · exact hlt
          · exact hl1 e' hmem
    · have hstep : ccnAux rgb ((name, v) :: rest) (some m) (some bn)
          = ccnAux rgb rest (some m) (some bn) := by
        simp [ccnAux, ltOptInf, h]
      rcases ih m bn with ⟨heq, hall⟩ | ⟨l1, e, l2, hsplit, heq, hlt, hl1, hl2⟩
      · refine Or.inl ⟨by rw [hstep, heq], ?_⟩
        intro e' he'
        rcases List.mem_cons.mp he' with rfl | hmem
        · exact le_of_not_lt h
        · exact hall e' hmem
      · refine Or.inr ⟨(name, v) :: l1, e, l2, by simp [hsplit], ?_, hlt, ?_, hl2⟩
        · rw [hstep, heq]
        · intro e' he'
          rcases List.mem_cons.mp he' with rfl | hmem
          · exact lt_of_lt_of_le hlt (le_of_not_lt h)
          · exact hl1 e' hmem

/-- C1: `closest_color_name` is total on RGB triples and returns the
name of a catalog entry that is the first entry (in the catalog's fixed
iteration order) attaining the minimum squared Euclidean distance: every
earlier entry is strictly farther, every later entry is no closer, and
hence the chosen entry's distance is at most that of every catalog
entry. -/
theorem closest_color_name_first_min (rgb : ℤ × ℤ × ℤ) :
    ∃ l1 e l2, COLOR_NAMES = l1 ++ e :: l2 ∧
      closest_color_name rgb = some e.1 ∧
      (∀ e' ∈ l1, colorDist rgb e.2 < colorDist rgb e'.2) ∧
      (∀ e' ∈ l2, colorDist rgb e.2 ≤ colorDist rgb e'.2) ∧
      (∀ e' ∈ COLOR_NAMES, colorDist rgb e.2 ≤ colorDist rgb e'.2) := by
  have hfirst : closest_color_name rgb
      = ccnAux rgb COLOR_NAMES.tail (some (colorDist rgb (255, 255, 255))) (some ("white")) := by
    simp [closest_color_name, COLOR_NAMES, ccnAux, ltOptInf]
  rcases ccnAux_invariant rgb COLOR_NAMES.tail (colorDist rgb (255, 255, 255)) ("white")
    with ⟨heq, hall⟩ | ⟨l1, e, l2, hsplit, heq, hlt, hl1, hl2⟩
  · refine ⟨[], ("white", 255, 255, 255), COLOR_NAMES.tail, by simp [COLOR_NAMES], ?_, by simp, ?_, ?_⟩
    · rw [hfirst, heq]
    · intro e' he'; exact hall e' he'
    · intro e' he'
      have : COLOR_NAMES = ("white", (255 : ℤ), (255 : ℤ), (255 : ℤ)) :: COLOR_NAMES.tail := by
        simp [COLOR_NAMES]
      rw [this] at he'
      rcases List.mem_cons.mp he' with rfl | hmem
      · exact le_refl _
      · exact hall e' hmem
  · refine ⟨("white", 255, 255, 255) :: l1, e, l2, ?_, ?_, ?_, hl2, ?_⟩
    · have : COLOR_NAMES = ("white", (255 : ℤ), (255 : ℤ), (255 : ℤ)) :: COLOR_NAMES.tail := by
        simp [COLOR_NAMES]
      rw [this, hsplit]; simp
    · rw [hfirst, heq]
    · intro e' he'
      rcases List.mem_cons.mp he' with rfl | hmem
      · exact hlt
      · exact hl1 e' hmem
    · intro e' he'
      have hc : COLOR_NAMES = ("white", (255 : ℤ), (255 : ℤ), (255 : ℤ)) :: COLOR_NAMES.tail := by
        simp [COLOR_NAMES]
      rw [hc] at he'
      rcases List.mem_cons.mp he' with rfl | hmem
      · exact le_of_lt hlt
      · rw [hsplit] at hmem
        rcases List.mem_append.mp hmem with h1 | h2
        · exact le_of_lt (hl1 e' h1)
        · rcases List.mem_cons.mp h2 with rfl | hmem2
          · exact le_refl _
          · exact hl2 e' hmem2

theorem mem_color_style_tags (r g b : ℤ) (s : String) :
    s ∈ color_style_tags r g b ↔
      s = tempTag r g b ∨ s ∈ brightnessTags r g b ∨ s ∈ chromaTags r g b ∨
        s ∈ luxuryTags r g b ∨ s ∈ naturalTags r g b := by
  simp [color_style_tags]

theorem tempTag_eq_cool_iff (r g b : ℤ) :
    tempTag r g b = "cool" ↔ b > r ∧ b > g := by
  unfold tempTag; split_ifs <;> simp_all

theorem tempTag_eq_warm_iff (r g b : ℤ) :
    tempTag r g b = "warm" ↔ r > b ∧ g > b := by
  unfold tempTag; split_ifs <;> simp_all <;> omega

theorem tempTag_eq_neutral_iff (r g b : ℤ) :
    tempTag r g b = "neutral" ↔ ¬(b > r ∧ b > g) ∧ ¬(r > b ∧ g > b) := by
  unfold tempTag; split_ifs <;> simp_all <;> omega

theorem mem_brightnessTags_iff (r g b : ℤ) (s : String) :
    s ∈ brightnessTags r g b ↔
      (s = "bright" ∧ meanBrightness r g b > 200) ∨
        (s = "dark" ∧ ¬(meanBrightness r g b > 200) ∧ meanBrightness r g b < 60) := by
  unfold brightnessTags; split_ifs <;> simp_all

theorem mem_chromaTags_iff (r g b : ℤ) (s : String) :
    s ∈ chromaTags r g b ↔
      (s = "vivid" ∧ chroma r g b > 100) ∨
        (s = "muted" ∧ ¬(chroma r g b > 100) ∧ chroma r g b < 30) := by
  unfold chromaTags; split_ifs <;> simp_all

theorem mem_luxuryTags_iff (r g b : ℤ) (s : String) :
    s ∈ luxuryTags r g b ↔
      s = "luxury" ∧ meanBrightness r g b < 120 ∧ chroma r g b < 50 := by
  unfold luxuryTags; split_ifs <;> simp_all

theorem mem_naturalTags_iff (r g b : ℤ) (s : String) :
    s ∈ naturalTags r g b ↔
      s = "natural" ∧ r > 120 ∧ g > 100 ∧ b < 80 ∧ chroma r g b > 20 := by
  unfold naturalTags; split_ifs <;> simp_all

theorem cool_mem_iff (r g b : ℤ) :
    "cool" ∈ color_style_tags r g b ↔ b > r ∧ b > g := by
  rw [mem_color_style_tags, eq_comm, tempTag_eq_cool_iff]
  simp [mem_brightnessTags_iff, mem_chromaTags_iff, mem_luxuryTags_iff, mem_naturalTags_iff]

theorem warm_mem_iff (r g b : ℤ) :
    "warm" ∈ color_style_tags r g b ↔ r > b ∧ g > b := by
  rw [mem_color_style_tags, eq_comm, tempTag_eq_warm_iff]
  simp [mem_brightnessTags_iff, mem_chromaTags_iff, mem_luxuryTags_iff, mem_naturalTags_iff]

theorem neutral_mem_iff (r g b : ℤ) :
    "neutral" ∈ color_style_tags r g b ↔ ¬(b > r ∧ b > g) ∧ ¬(r > b ∧ g > b) := by
  rw [mem_color_style_tags, eq_comm, tempTag_eq_neutral_iff]
  simp [mem_brightnessTags_iff, mem_chromaTags_iff, mem_luxuryTags_iff, mem_naturalTags_iff]

theorem tempTag_cases (r g b : ℤ) :
    tempTag r g b = "cool" ∨ tempTag r g b = "warm" ∨ tempTag r g b = "neutral" := by
  unfold tempTag; split_ifs <;> simp

theorem bright_mem_iff (r g b : ℤ) :
    "bright" ∈ color_style_tags r g b ↔ meanBrightness r g b > 200 := by
  rw [mem_color_style_tags]
  rcases tempTag_cases r g b with h | h | h <;>
    simp [h, mem_brightnessTags_iff, mem_chromaTags_iff, mem_luxuryTags_iff, mem_naturalTags_iff]

theorem dark_mem_iff (r g b : ℤ) :
    "dark" ∈ color_style_tags r g b ↔ meanBrightness r g b < 60 := by
  rw [mem_color_style_tags]
  rcases tempTag_cases r g b with h | h | h <;>
      simp [h, mem_brightnessTags_iff, mem_chromaTags_iff, mem_luxuryTags_iff,
        mem_naturalTags_iff] <;>
    intro hx <;> linarith

theorem vivid_mem_iff (r g b : ℤ) :
    "vivid" ∈ color_style_tags r g b ↔ chroma r g b > 100 := by
  rw [mem_color_style_tags]
  rcases tempTag_cases r g b with h | h | h <;>
    simp [h, mem_brightnessTags_iff, mem_chromaTags_iff, mem_luxuryTags_iff, mem_naturalTags_iff]

theorem muted_mem_iff (r g b : ℤ) :
    "muted" ∈ color_style_tags r g b ↔ chroma r g b < 30 := by
  rw [mem_color_style_tags]
  rcases tempTag_cases r g b with h | h | h <;>
      simp [h, mem_brightnessTags_iff, mem_chromaTags_iff, mem_luxuryTags_iff,
        mem_naturalTags_iff] <;>
    intro hx <;> omega

theorem luxury_mem_iff (r g b : ℤ) :
    "luxury" ∈ color_style_tags r g b ↔
      meanBrightness r g b < 120 ∧ chroma r g b < 50 := by
  rw [mem_color_style_tags]
  rcases tempTag_cases r g b with h | h | h <;>
    simp [h, mem_brightnessTags_iff, mem_chromaTags_iff, mem_luxuryTags_iff, mem_naturalTags_iff]

theorem natural_mem_iff (r g b : ℤ) :
    "natural" ∈ color_style_tags r g b ↔
      r > 120 ∧ g > 100 ∧ b < 80 ∧ chroma r g b > 20 := by
  rw [mem_color_style_tags]
  rcases tempTag_cases r g b with h | h | h <;>
    simp [h, mem_brightnessTags_iff, mem_chromaTags_iff, mem_luxuryTags_iff, mem_naturalTags_iff]

set_option maxHeartbeats 1000000 in

theorem color_style_tags_nodup (r g b : ℤ) : (color_style_tags r g b).Nodup := by
  unfold color_style_tags tempTag brightnessTags chromaTags luxuryTags naturalTags
  split_ifs <;> decide

set_option maxHeartbeats 1000000 in

theorem color_style_tags_sublist (r g b : ℤ) :
    (color_style_tags r g b).Sublist
      ["cool", "warm", "neutral", "bright", "dark", "vivid", "muted", "luxury", "natural"] := by
  unfold color_style_tags tempTag brightnessTags chromaTags luxuryTags naturalTags
  split_ifs <;> decide

theorem color_style_tags_ne_nil (r g b : ℤ) : color_style_tags r g b ≠ [] := by
  simp [color_style_tags]

/-- C2: for every RGB triple the tag list contains exactly one of
cool/warm/neutral (cool when B is the strict maximum, warm when R and G
both exceed B, else neutral), at most one of bright/dark (bright iff
mean > 200, dark iff mean < 60), at most one of vivid/muted (vivid iff
chroma > 100, muted iff chroma < 30), luxury exactly when mean < 120 and
chroma < 50, natural exactly when R > 120, G > 100, B < 80 and
chroma > 20; the tags appear in the evaluation order (witnessed by being
a sublist of the ordered master vocabulary, with no duplicates), and the
list is never empty. -/
theorem color_style_tags_spec (r g b : ℤ) :
    ("cool" ∈ color_style_tags r g b ↔ b > r ∧ b > g) ∧
    ("warm" ∈ color_style_tags r g b ↔ r > b ∧ g > b) ∧
    ("neutral" ∈ color_style_tags r g b ↔ ¬(b > r ∧ b > g) ∧ ¬(r > b ∧ g > b)) ∧
    (("cool" ∈ color_style_tags r g b ∧ "warm" ∉ color_style_tags r g b ∧
        "neutral" ∉ color_style_tags r g b) ∨
      ("warm" ∈ color_style_tags r g b ∧ "cool" ∉ color_style_tags r g b ∧
        "neutral" ∉ color_style_tags r g b) ∨
      ("neutral" ∈ color_style_tags r g b ∧ "cool" ∉ color_style_tags r g b ∧
        "warm" ∉ color_style_tags r g b)) ∧
    ("bright" ∈ color_style_tags r g b ↔ meanBrightness r g b > 200) ∧
    ("dark" ∈ color_style_tags r g b ↔ meanBrightness r g b < 60) ∧
    ¬("bright" ∈ color_style_tags r g b ∧ "dark" ∈ color_style_tags r g b) ∧
    ("vivid" ∈ color_style_tags r g b ↔ chroma r g b > 100) ∧
    ("muted" ∈ color_style_tags r g b ↔ chroma r g b < 30) ∧
    ¬("vivid" ∈ color_style_tags r g b ∧ "muted" ∈ color_style_tags r g b) ∧
    ("luxury" ∈ color_style_tags r g b ↔
      meanBrightness r g b < 120 ∧ chroma r g b < 50) ∧
    ("natural" ∈ color_style_tags r g b ↔
      r > 120 ∧ g > 100 ∧ b < 80 ∧ chroma r g b > 20) ∧
    color_style_tags r g b ≠ [] ∧
    (color_style_tags r g b).Nodup ∧
    (color_style_tags r g b).Sublist
      ["cool", "warm", "neutral", "bright", "dark", "vivid", "muted", "luxury", "natural"] := by
  refine ⟨cool_mem_iff r g b, warm_mem_iff r g b, neutral_mem_iff r g b, ?_,
    bright_mem_iff r g b, dark_mem_iff r g b, ?_, vivid_mem_iff r g b,
    muted_mem_iff r g b, ?_, luxury_mem_iff r g b, natural_mem_iff r g b,
    color_style_tags_ne_nil r g b, color_style_tags_nodup r g b,
    color_style_tags_sublist r g b⟩
  · by_cases hc : b > r ∧ b > g
    · exact Or.inl ⟨(cool_mem_iff r g b).mpr hc,
        by rw [warm_mem_iff]; omega, by rw [neutral_mem_iff]; tauto⟩
    · by_cases hw : r > b ∧ g > b
      · exact Or.inr (Or.inl ⟨(warm_mem_iff r g b).mpr hw,
          by rw [cool_mem_iff]; omega, by rw [neutral_mem_iff]; tauto⟩)
      · exact Or.inr (Or.inr ⟨(neutral_mem_iff r g b).mpr ⟨hc, hw⟩,
          by rw [cool_mem_iff]; exact hc, by rw [warm_mem_iff]; exact hw⟩)
  · rintro ⟨h1, h2⟩
    rw [bright_mem_iff] at h1
    rw [dark_mem_iff] at h2
    linarith
  · rintro ⟨h1, h2⟩
    rw [vivid_mem_iff] at h1
    rw [muted_mem_iff] at h2
    omega

theorem color_style_tags_length_eq (r g b : ℤ) :
    (color_style_tags r g b).length =
      1 + (brightnessTags r g b).length + (chromaTags r g b).length
        + (luxuryTags r g b).length + (naturalTags r g b).length := by
  simp [color_style_tags]; omega

theorem brightnessTags_len_le (r g b : ℤ) : (brightnessTags r g b).length ≤ 1 := by
  unfold brightnessTags; split_ifs <;> simp

theorem chromaTags_len_le (r g b : ℤ) : (chromaTags r g b).length ≤ 1 := by
  unfold chromaTags; split_ifs <;> simp

theorem luxuryTags_len_le (r g b : ℤ) : (luxuryTags r g b).length ≤ 1 := by
  unfold luxuryTags; split_ifs <;> simp

theorem naturalTags_len_le (r g b : ℤ) : (naturalTags r g b).length ≤ 1 := by
  unfold naturalTags; split_ifs <;> simp

theorem chroma_ge_of_natural (r g b : ℤ) (hr : r > 120) (hb : b < 80) :
    chroma r g b > 40 := by
  have hM : r ≤ max r (max g b) := le_max_left _ _
  have hm : min r (min g b) ≤ b := le_trans (min_le_right _ _) (min_le_right _ _)
  unfold chroma; omega

theorem meanBrightness_ge_of_natural (r g b : ℤ) (hr : r > 120) (hg : g > 100)
    (hb : 0 ≤ b) : ¬ meanBrightness r g b < 60 := by
  have h1 : (120 : ℚ) < (r : ℚ) := by exact_mod_cast hr
  have h2 : (100 : ℚ) < (g : ℚ) := by exact_mod_cast hg
  have h3 : (0 : ℚ) ≤ (b : ℚ) := by exact_mod_cast hb
  unfold meanBrightness
  intro h
  rw [div_lt_iff (by norm_num : (0 : ℚ) < 3)] at h
  linarith

theorem meanBrightness_le_of_bounded (r g b : ℤ) (hr : r ≤ 255) (hg : g ≤ 255)
    (hb : b < 80) : ¬ meanBrightness r g b > 200 := by
  have h1 : (r : ℚ) ≤ 255 := by exact_mod_cast hr
  have h2 : (g : ℚ) ≤ 255 := by exact_mod_cast hg
  have h3 : (b : ℚ) < 80 := by exact_mod_cast hb
  unfold meanBrightness
  intro h
  rw [gt_iff_lt, lt_div_iff (by norm_num : (0 : ℚ) < 3)] at h
  linarith

/-- C10: on the RGB domain (each channel in 0..255) the tag list has
between 1 and 4 entries; the thresholds make bright and vivid
incompatible with luxury, and natural incompatible with dark, bright and
muted; the bound 4 is attained at (20, 20, 20). -/
theorem color_style_tags_length_bound (r g b : ℤ)
    (h0r : 0 ≤ r) (hr : r ≤ 255) (h0g : 0 ≤ g) (hg : g ≤ 255)
    (h0b : 0 ≤ b) (hb : b ≤ 255) :
    1 ≤ (color_style_tags r g b).length ∧ (color_style_tags r g b).length ≤ 4 ∧
    ¬("bright" ∈ color_style_tags r g b ∧ "luxury" ∈ color_style_tags r g b) ∧
    ¬("vivid" ∈ color_style_tags r g b ∧ "luxury" ∈ color_style_tags r g b) ∧
    ¬("natural" ∈ color_style_tags r g b ∧ "dark" ∈ color_style_tags r g b) ∧
    ¬("natural" ∈ color_style_tags r g b ∧ "bright" ∈ color_style_tags r g b) ∧
    ¬("natural" ∈ color_style_tags r g b ∧ "muted" ∈ color_style_tags r g b) ∧
    (color_style_tags 20 20 20).length = 4 := by
  have hlen := color_style_tags_length_eq r g b
  refine ⟨by omega, ?_, ?_, ?_, ?_, ?_, ?_, ?_⟩
  · by_cases hl : meanBrightness r g b < 120 ∧ chroma r g b < 50
    · by_cases hn : r > 120 ∧ g > 100 ∧ b < 80 ∧ chroma r g b > 20
      · have hbp : brightnessTags r g b = [] := by
          unfold brightnessTags
          rw [if_neg (by intro h; linarith [hl.1]), if_neg
            (meanBrightness_ge_of_natural r g b hn.1 hn.2.1 h0b)]
        have hcp : chromaTags r g b = [] := by
          unfold chromaTags
          rw [if_neg (by omega), if_neg
            (by have := chroma_ge_of_natural r g b hn.1 hn.2.2.1; omega)]
        have := luxuryTags_len_le r g b
        have := naturalTags_len_le r g b
        rw [hbp, hcp] at hlen
        simp at hlen
        omega
      · have hnp : naturalTags r g b = [] := by
          unfold naturalTags; rw [if_neg hn]
        have := brightnessTags_len_le r g b
        have := chromaTags_len_le r g b
        have := luxuryTags_len_le r g b
        rw [hnp] at hlen
        simp at hlen
        omega
    · have hlp : luxuryTags r g b = [] := by
        unfold luxuryTags; rw [if_neg hl]
      have := brightnessTags_len_le r g b
      have := chromaTags_len_le r g b
      have := naturalTags_len_le r g b
      rw [hlp] at hlen
      simp at hlen
      omega
  · rintro ⟨h1, h2⟩
    rw [bright_mem_iff] at h1
    rw [luxury_mem_iff] at h2
    linarith [h2.1]
  · rintro ⟨h1, h2⟩
    rw [vivid_mem_iff] at h1
    rw [luxury_mem_iff] at h2
    omega
  · rintro ⟨h1, h2⟩
    rw [natural_mem_iff] at h1
    rw [dark_mem_iff] at h2
    exact meanBrightness_ge_of_natural r g b h1.1 h1.2.1 h0b h2
  · rintro ⟨h1, h2⟩
    rw [natural_mem_iff] at h1
    rw [bright_mem_iff] at h2
    exact meanBrightness_le_of_bounded r g b hr hg h1.2.2.1 h2
  · rintro ⟨h1, h2⟩
    rw [natural_mem_iff] at h1
    rw [muted_mem_iff] at h2
    have := chroma_ge_of_natural r g b h1.1 h1.2.2.1
    omega
  · have h20 : color_style_tags 20 20 20 = ["neutral", "dark", "muted", "luxury"] := by
      norm_num [color_style_tags, tempTag, brightnessTags, chromaTags, luxuryTags,
        naturalTags, meanBrightness, chroma]
    rw [h20]
    rfl

/-- Witness for `color_style_tags_length_bound` at the concrete triple
(20, 20, 20). -/
theorem color_style_tags_length_bound_witness :
    1 ≤ (color_style_tags 20 20 20).length ∧ (color_style_tags 20 20 20).length ≤ 4 ∧
    ¬("bright" ∈ color_style_tags 20 20 20 ∧ "luxury" ∈ color_style_tags 20 20 20) ∧
    ¬("vivid" ∈ color_style_tags 20 20 20 ∧ "luxury" ∈ color_style_tags 20 20 20) ∧
    ¬("natural" ∈ color_style_tags 20 20 20 ∧ "dark" ∈ color_style_tags 20 20 20) ∧
    ¬("natural" ∈ color_style_tags 20 20 20 ∧ "bright" ∈ color_style_tags 20 20 20) ∧
    ¬("natural" ∈ color_style_tags 20 20 20 ∧ "muted" ∈ color_style_tags 20 20 20) ∧
    (color_style_tags 20 20 20).length = 4 :=
  color_style_tags_length_bound 20 20 20 (by norm_num) (by norm_num) (by norm_num)
    (by norm_num) (by norm_num) (by norm_num)

/-- C7: on RGB (255, 255, 255) the closest catalog name is "white" and
the tags have "bright" as the sole brightness tag with temperature tag
"neutral"; on RGB (20, 20, 20) the closest name is "black" and the tags
include "dark", "muted" and "luxury". -/
theorem concrete_color_scenarios :
    closest_color_name (255, 255, 255) = some ("white") ∧
    "bright" ∈ color_style_tags 255 255 255 ∧
    "dark" ∉ color_style_tags 255 255 255 ∧
    "neutral" ∈ color_style_tags 255 255 255 ∧
    closest_color_name (20, 20, 20) = some ("black") ∧
    "dark" ∈ color_style_tags 20 20 20 ∧
    "muted" ∈ color_style_tags 20 20 20 ∧
    "luxury" ∈ color_style_tags 20 20 20 := by
  have h255 : color_style_tags 255 255 255 = ["neutral", "bright", "muted"] := by
    norm_num [color_style_tags, tempTag, brightnessTags, chromaTags, luxuryTags,
      naturalTags, meanBrightness, chroma]
  have h20 : color_style_tags 20 20 20 = ["neutral", "dark", "muted", "luxury"] := by
    norm_num [color_style_tags, tempTag, brightnessTags, chromaTags, luxuryTags,
      naturalTags, meanBrightness, chroma]
  refine ⟨by decide, ?_, ?_, ?_, by decide, ?_, ?_, ?_⟩ <;> simp [h255, h20]

/-- C3: whenever the clustering step yields `k` centroids (its contract
for 3 ≤ k ≤ 10), the palette returned by `extract_colors` has exactly
`k` colors and is sorted ascending by luminance: for indices i < j the
luminance of entry i is at most that of entry j. -/
theorem extract_colors_length_sorted
    (kmeansFit : List (ℤ × ℤ × ℤ) → ℕ → List (ℚ × ℚ × ℚ))
    (image : List (ℤ × ℤ × ℤ)) (k : ℕ) (h3 : 3 ≤ k) (h10 : k ≤ 10)
    (hk : (kmeansFit image k).length = k) :
    (extract_colors kmeansFit image k).length = k ∧
    ∀ (i j : Fin (extract_colors kmeansFit image k).length), (i : ℕ) < (j : ℕ) →
      luminance ((extract_colors kmeansFit image k).get i) ≤
        luminance ((extract_colors kmeansFit image k).get j) := by
  constructor
  · unfold extract_colors
    rw [(List.perm_insertionSort lumLE _).length_eq, List.length_map]
    exact hk
  · intro i j hij
    have hs : List.Sorted lumLE (extract_colors kmeansFit image k) :=
      List.sorted_insertionSort lumLE _
    exact hs.rel_get_of_lt hij

/-- Witness for `extract_colors_length_sorted` with a concrete
three-centroid clustering function. -/
theorem extract_colors_length_sorted_witness :
    (extract_colors (fun _ _ => [(1, 1, 1), (200, 10, 3), (7, 250, 0)]) [] 3).length = 3 ∧
    ∀ (i j : Fin (extract_colors (fun _ _ => [(1, 1, 1), (200, 10, 3), (7, 250, 0)]) [] 3).length),
      (i : ℕ) < (j : ℕ) →
      luminance ((extract_colors (fun _ _ => [(1, 1, 1), (200, 10, 3), (7, 250, 0)]) [] 3).get i) ≤
        luminance ((extract_colors (fun _ _ => [(1, 1, 1), (200, 10, 3), (7, 250, 0)]) [] 3).get j) :=
  extract_colors_length_sorted _ [] 3 (by norm_num) (by norm_num) rfl

/-- C6: `extract_colors` is a deterministic pure function of the pixel
data and K — two calls with identical inputs (and the same fixed-seed
clustering routine) produce identical palettes. -/
theorem extract_colors_deterministic
    (kmeansFit : List (ℤ × ℤ × ℤ) → ℕ → List (ℚ × ℚ × ℚ))
    (img1 img2 : List (ℤ × ℤ × ℤ)) (k1 k2 : ℕ)
    (himg : img1 = img2) (hk : k1 = k2) :
    extract_colors kmeansFit img1 k1 = extract_colors kmeansFit img2 k2 := by
  rw [himg, hk]

/-- Witness for `extract_colors_deterministic` at concrete inputs. -/
theorem extract_colors_deterministic_witness :
    extract_colors (fun _ _ => [(5, 5, 5)]) [(1, 2, 3)] 1 =
      extract_colors (fun _ _ => [(5, 5, 5)]) [(1, 2, 3)] 1 :=
  extract_colors_deterministic (fun _ _ => [(5, 5, 5)]) [(1, 2, 3)] [(1, 2, 3)] 1 1 rfl rfl

/-- C5 amended: each palette color is a cluster centroid with each
channel truncated toward zero by `astype(int)` (not rounded to
nearest); the palette is exactly the truncated centroids reordered. -/
theorem extract_colors_mem_astype
    (kmeansFit : List (ℤ × ℤ × ℤ) → ℕ → List (ℚ × ℚ × ℚ))
    (image : List (ℤ × ℤ × ℤ)) (k : ℕ) (c : ℤ × ℤ × ℤ)
    (hc : c ∈ extract_colors kmeansFit image k) :
    ∃ q ∈ kmeansFit image k, c = astypeRGB q := by
  unfold extract_colors at hc
  rw [List.mem_insertionSort] at hc
  obtain ⟨q, hq, hqc⟩ := List.mem_map.mp hc
  exact ⟨q, hq, hqc.symm⟩

theorem astypeRGB_nine_tenths :
    astypeRGB ((9 : ℚ)/10, (9 : ℚ)/10, (9 : ℚ)/10) = (0, 0, 0) := by
  unfold astypeRGB astypeInt
  norm_num

/-- Counterexample to C5 as stated: on a cluster whose centroid has all
channels 9/10, the source's `astype(int)` conversion yields color
(0, 0, 0), while mapping each channel to its nearest integer (as the
claim states) would yield (1, 1, 1). -/
theorem extract_colors_not_nearest_rounding :
    extract_colors (fun _ _ => [((9 : ℚ)/10, (9 : ℚ)/10, (9 : ℚ)/10)]) [] 1 = [(0, 0, 0)] ∧
    specRoundedExtractColors (fun _ _ => [((9 : ℚ)/10, (9 : ℚ)/10, (9 : ℚ)/10)]) [] 1
      = [(1, 1, 1)] ∧
    extract_colors (fun _ _ => [((9 : ℚ)/10, (9 : ℚ)/10, (9 : ℚ)/10)]) [] 1 ≠
      specRoundedExtractColors (fun _ _ => [((9 : ℚ)/10, (9 : ℚ)/10, (9 : ℚ)/10)]) [] 1 := by
  have h1 : extract_colors (fun _ _ => [((9 : ℚ)/10, (9 : ℚ)/10, (9 : ℚ)/10)]) [] 1
      = [(0, 0, 0)] := by
    unfold extract_colors
    rw [List.map_cons, List.map_nil, astypeRGB_nine_tenths]
    rfl
  have hr : round ((9 : ℚ)/10) = 1 := by
    rw [round_eq]; norm_num
  have h2 : specRoundedExtractColors (fun _ _ => [((9 : ℚ)/10, (9 : ℚ)/10, (9 : ℚ)/10)]) [] 1
      = [(1, 1, 1)] := by
    unfold specRoundedExtractColors
    rw [List.map_cons, List.map_nil]
    simp only [hr]
    rfl
  refine ⟨h1, h2, ?_⟩
  rw [h1, h2]
  simp

/-- Witness for `extract_colors_mem_astype` on a concrete clustering
function. -/
theorem extract_colors_mem_astype_witness :
    ∃ q ∈ [((9 : ℚ)/10, (9 : ℚ)/10, (9 : ℚ)/10)],
      ((0 : ℤ), (0 : ℤ), (0 : ℤ)) = astypeRGB q :=
  extract_colors_mem_astype (fun _ _ => [((9 : ℚ)/10, (9 : ℚ)/10, (9 : ℚ)/10)]) [] 1 (0, 0, 0)
    (by
      have h1 : extract_colors (fun _ _ => [((9 : ℚ)/10, (9 : ℚ)/10, (9 : ℚ)/10)]) [] 1
          = [(0, 0, 0)] := by
        unfold extract_colors
        rw [List.map_cons, List.map_nil, astypeRGB_nine_tenths]
        rfl
      rw [h1]
      simp)

/-- C8: with the API key absent from the secret store, the session
renders the page header, reports the configuration error, and halts:
no file uploader, no K slider, no extraction run and no remote call
appear in the trace; and the key is the only configuration gate — with
any key present the input widgets are always rendered. -/
theorem main_flow_missing_key (uploaded : Option (List (ℤ × ℤ × ℤ)))
    (decodeOk : Bool) (k : ℕ) (outcome : RemoteOutcome) (key : String) :
    main_flow none uploaded decodeOk k outcome =
      [Ev.pageConfig, Ev.titleBanner, Ev.intro, Ev.apiKeyError] ∧
    Ev.apiKeyError ∈ main_flow none uploaded decodeOk k outcome ∧
    Ev.fileUploader ∉ main_flow none uploaded decodeOk k outcome ∧
    Ev.kSlider ∉ main_flow none uploaded decodeOk k outcome ∧
    Ev.extractRun ∉ main_flow none uploaded decodeOk k outcome ∧
    Ev.remoteCall ∉ main_flow none uploaded decodeOk k outcome ∧
    Ev.fileUploader ∈ main_flow (some key) uploaded decodeOk k outcome ∧
    Ev.kSlider ∈ main_flow (some key) uploaded decodeOk k outcome := by
  have h : main_flow none uploaded decodeOk k outcome =
      [Ev.pageConfig, Ev.titleBanner, Ev.intro, Ev.apiKeyError] := rfl
  refine ⟨h, ?_, ?_, ?_, ?_, ?_, ?_, ?_⟩ <;> simp [h, main_flow]

theorem pyLstrip_eq_self (set s : List Char)
    (h : ∀ c, s.head? = some c → c ∉ set) : pyLstrip set s = s := by
  cases s with
  | nil => rfl
  | cons c cs => simp [pyLstrip, h c rfl]

theorem pyLstrip_append (set p s : List Char) (hp : ∀ c ∈ p, c ∈ set) :
    pyLstrip set (p ++ s) = pyLstrip set s := by
  induction p with
  | nil => rfl
  | cons c cs ih =>
    simp only [List.cons_append, pyLstrip, if_pos (hp c (by simp))]
    exact ih fun c hc => hp c (by simp [hc])

theorem pyRstrip_eq_self (set s : List Char)
    (h : ∀ c, s.getLast? = some c → c ∉ set) : pyRstrip set s = s := by
  unfold pyRstrip
  rw [pyLstrip_eq_self, List.reverse_reverse]
  intro c hc
  exact h c (by rwa [List.head?_reverse] at hc)

theorem pyRstrip_append (set s suf : List Char) (hsuf : ∀ c ∈ suf, c ∈ set) :
    pyRstrip set (s ++ suf) = pyRstrip set s := by
  unfold pyRstrip
  rw [List.reverse_append, pyLstrip_append]
  intro c hc
  exact hsuf c (by rwa [List.mem_reverse] at hc)

theorem pyStrip_eq_self (s : List Char)
    (h1 : ∀ c, s.head? = some c → c ∉ wsChars)
    (h2 : ∀ c, s.getLast? = some c → c ∉ wsChars) : pyStrip s = s := by
  unfold pyStrip
  rw [pyLstrip_eq_self _ _ h1, pyRstrip_eq_self _ _ h2]

theorem startswith_append_self (p s : List Char) : startswith p (p ++ s) = true := by
  induction p with
  | nil => rfl
  | cons c cs ih => simp [startswith, ih]

theorem stripJsonFence_wrap (body : List Char) (hne : body ≠ [])
    (hhead : ∀ c, body.head? = some c → c ∉ fenceChars)
    (hlast : ∀ c, body.getLast? = some c → c ∉ backtickChars) :
    stripJsonFence (fenceChars ++ (body ++ backtickChars)) = pyStrip body := by
  have hbt : ('\x60' : Char) ∉ wsChars := by decide
  have hw : pyStrip (fenceChars ++ (body ++ backtickChars))
      = fenceChars ++ (body ++ backtickChars) := by
    apply pyStrip_eq_self
    · intro c hc
      have : (fenceChars ++ (body ++ backtickChars)).head? = some '\x60' := rfl
      rw [this] at hc
      cases hc
      exact hbt
    · intro c hc
      rw [List.getLast?_append, List.getLast?_append,
        show backtickChars.getLast? = some '\x60' from rfl] at hc
      cases hc
      exact hbt
  have hbody_head : (body ++ backtickChars).head? = body.head? :=
    List.head?_append_of_ne_nil _ hne
  simp only [stripJsonFence, hw, startswith_append_self, if_pos]
  rw [pyLstrip_append fenceChars fenceChars _ (fun c hc => hc),
    pyLstrip_eq_self _ _ (by
      intro c hc
      rw [hbody_head] at hc
      exact hhead c hc),
    pyRstrip_append _ _ _ (fun c hc => hc),
    pyRstrip_eq_self _ _ hlast]

/-- Counterexample to C4 as stated: on response text
`\x60\x60\x60jsonnull\x60\x60\x60` the enclosed content is `null` (valid JSON), but the
source's `lstrip("\x60\x60\x60json")` removes leading characters from the SET
of the marker's characters, eating the leading `n` of `null`; the code
parses `ull` and fails, while literal-marker stripping as claimed
would parse `null` successfully. -/
theorem stripJsonFence_not_literal :
    parseResponse ("```jsonnull```") = none ∧
    stripJsonFence (("```jsonnull```").toList) = ("ull").toList ∧
    specStripJsonFence (("```jsonnull```").toList) = ("null").toList ∧
    parseJsonChars (("null").toList) = some JsonVal.null ∧
    parseJsonChars (("ull").toList) = none :=
  ⟨rfl, rfl, rfl, rfl, rfl⟩

/-- C4 amended: the stripping removes the maximal leading run of
characters from the set of `\x60\x60\x60json` and the maximal trailing run of
backticks (character-set semantics of Python's `lstrip`/`rstrip`, not
literal-marker removal); whenever the enclosed content neither begins
with a character of that set nor ends with a backtick, this agrees with
literal stripping and leaves the content (whitespace-trimmed) unchanged.
The claim's three example behaviors hold, and a parse failure is
surfaced through `main`'s generic-exception branch, distinct from the
`ConnectionError` (service-error) branch. -/
theorem parseResponse_spec (body : List Char) (hne : body ≠ [])
    (hhead : ∀ c, body.head? = some c → c ∉ fenceChars)
    (hlast : ∀ c, body.getLast? = some c → c ∉ backtickChars) :
    stripJsonFence (fenceChars ++ (body ++ backtickChars)) = pyStrip body ∧
    parseResponse ("```json\n\x7b\"a\":1\x7d\n```") =
      some (JsonVal.obj [(("a").toList, JsonVal.num 1)]) ∧
    parseResponse ("\x7b\"a\":1\x7d") =
      some (JsonVal.obj [(("a").toList, JsonVal.num 1)]) ∧
    parseResponse ("not json") = none ∧
    Ev.genErr ∈ main_flow (some ("k")) (some []) true 5 (RemoteOutcome.ok ("not json")) ∧
    Ev.serviceErr ∉ main_flow (some ("k")) (some []) true 5 (RemoteOutcome.ok ("not json")) ∧
    Ev.serviceErr ∈ main_flow (some ("k")) (some []) true 5 RemoteOutcome.clientInitFail ∧
    Ev.genErr ∉ main_flow (some ("k")) (some []) true 5 RemoteOutcome.clientInitFail :=
  ⟨stripJsonFence_wrap body hne hhead hlast, rfl, rfl, rfl,
    by decide, by decide, by decide, by decide⟩

/-- Witness for `parseResponse_spec` at the enclosed content of the
claim's own round-trip example. -/
theorem parseResponse_spec_witness :
    stripJsonFence (fenceChars ++ ((("\n\x7b\"a\":1\x7d\n").toList) ++ backtickChars)) =
      pyStrip (("\n\x7b\"a\":1\x7d\n").toList) ∧
    parseResponse ("```json\n\x7b\"a\":1\x7d\n```") =
      some (JsonVal.obj [(("a").toList, JsonVal.num 1)]) ∧
    parseResponse ("\x7b\"a\":1\x7d") =
      some (JsonVal.obj [(("a").toList, JsonVal.num 1)]) ∧
    parseResponse ("not json") = none ∧
    Ev.genErr ∈ main_flow (some ("k")) (some []) true 5 (RemoteOutcome.ok ("not json")) ∧
    Ev.serviceErr ∉ main_flow (some ("k")) (some []) true 5 (RemoteOutcome.ok ("not json")) ∧
    Ev.serviceErr ∈ main_flow (some ("k")) (some []) true 5 RemoteOutcome.clientInitFail ∧
    Ev.genErr ∉ main_flow (some ("k")) (some []) true 5 RemoteOutcome.clientInitFail :=
  parseResponse_spec (("\n\x7b\"a\":1\x7d\n").toList) (by decide) (by decide) (by decide)

/-- C9: the output text 憤怒|要求 splits on the separator into the two
ordered tokens 憤怒 and 要求, both present in the display mapping table,
and renders as the two mapped labels joined by " / "; a token outside
the table passes through unmapped. -/
theorem emotion_tokens_scenario :
    classifyTokens ("憤怒|要求") = ["憤怒", "要求"] ∧
    (emotionDisplayMap.lookup ("憤怒")).isSome = true ∧
    (emotionDisplayMap.lookup ("要求")).isSome = true ∧
    renderEmotions ("憤怒|要求") =
      (emotionDisplayMap.lookup ("憤怒")).getD ("") ++ " / " ++
        (emotionDisplayMap.lookup ("要求")).getD ("") ∧
    renderEmotions ("憤怒|要求") = "😡 憤怒 / 📢 要求" ∧
    renderEmotionToken ("其他") = "其他" := by
  refine ⟨?_, rfl, rfl, ?_, ?_, rfl⟩ <;> decide
